import Mathlib

/-!
Verification of the DNS proxy JS query bridge
(`modules/dns_proxy/dns_proxy_js_query.go`).

The Go unit converts a decoded DNS wire message (`dns.Msg`) into a
script-facing generic representation (`JSQuery`), fingerprints it, and
converts a (possibly script-mutated) `JSQuery` back into a fresh wire
message.  The per-resource-record codec (`NewJSResourceRecord` / `ToRR`),
the field-coercion helpers (`jsPropToString` / `jsPropToUint16`), the LAN
address book and the log sink live outside the given source file; the
codec and the address book are taken as parameters, the coercion helpers
are modelled from the spec, and logging is made explicit as a list of
logged error strings returned next to each result.

Strings produced by `fmt.Sprintf` %t / %d verbs and by `json.Marshal`
are modelled character-by-character (`goBool`, `natDec`, `goInt`,
`jsonStr`, `jsonVal`, `jsonSlot`, `jsonList`), including Go's JSON
string escaping (with HTML escaping, Go's default) and sorted map keys.
-/

namespace DnsProxy

/-! ## Definitions: the embedded data model, rendering and operations -/

/-- Model of Go fmt's %t verb. -/
def goBool (b : Bool) : String := if b then "true" else "false"

/-- Decimal digit list (most significant first) of a natural number. -/
def decDigits (n : Nat) : List Nat :=
  if n = 0 then [0] else (Nat.digits 10 n).reverse

/-- Decimal rendering of a natural number, as printed by Go's %d verb
and by JSON number encoding. -/
def natDec (n : Nat) : String := ⟨(decDigits n).map Nat.digitChar⟩

/-- Model of Go fmt's %d verb on (signed) int. -/
def goInt (i : Int) : String :=
  if i < 0 then "-" ++ natDec (-i).toNat else natDec i.toNat

/-- Join a list of strings with a separator, as a chain of appends. -/
def sepJoin (sep : String) : List String → String
  | [] => ""
  | [s] => s
  | s :: rest => s ++ sep ++ sepJoin sep rest

/-- Escape one character the way Go's encoding/json does with the default
HTML-escaping encoder. -/
def escChar (c : Char) : List Char :=
  if c = '"' then ['\\', '"']
  else if c = '\\' then ['\\', '\\']
  else if c = '\n' then ['\\', 'n']
  else if c = '\r' then ['\\', 'r']
  else if c = '\t' then ['\\', 't']
  else if c.toNat < 32 then
    ['\\', 'u', '0', '0', Nat.digitChar (c.toNat / 16), Nat.digitChar (c.toNat % 16)]
  else if c = '<' then ['\\', 'u', '0', '0', '3', 'c']
  else if c = '>' then ['\\', 'u', '0', '0', '3', 'e']
  else if c = '&' then ['\\', 'u', '0', '0', '2', '6']
  else if c.toNat = 8232 then ['\\', 'u', '2', '0', '2', '8']
  else if c.toNat = 8233 then ['\\', 'u', '2', '0', '2', '9']
  else [c]

def escList : List Char → List Char
  | [] => []
  | c :: r => escChar c ++ escList r

/-- Value of a lowercase hexadecimal digit character. -/
def hexVal (c : Char) : Nat :=
  if c = '0' then 0 else if c = '1' then 1 else if c = '2' then 2
  else if c = '3' then 3 else if c = '4' then 4 else if c = '5' then 5
  else if c = '6' then 6 else if c = '7' then 7 else if c = '8' then 8
  else if c = '9' then 9 else if c = 'a' then 10 else if c = 'b' then 11
  else if c = 'c' then 12 else if c = 'd' then 13 else if c = 'e' then 14
  else if c = 'f' then 15 else 0

/-- Decoder for `escList`; used only to prove the escaping injective. -/
def unesc : List Char → List Char
  | [] => []
  | '\\' :: '"' :: r => '"' :: unesc r
  | '\\' :: '\\' :: r => '\\' :: unesc r
  | '\\' :: 'n' :: r => '\n' :: unesc r
  | '\\' :: 'r' :: r => '\r' :: unesc r
  | '\\' :: 't' :: r => '\t' :: unesc r
  | '\\' :: 'u' :: a :: b :: c :: d :: r =>
      Char.ofNat (((hexVal a * 16 + hexVal b) * 16 + hexVal c) * 16 + hexVal d) ::
        unesc r
  | '\\' :: r => unesc r
  | c :: r => c :: unesc r

/-- JSON string body escaping, Go encoding/json default encoder. -/
def escString (s : String) : String := ⟨escList s.data⟩

/-- JSON encoding of a Go string value (quoted, escaped). -/
def jsonStr (s : String) : String := "\"" ++ escString s ++ "\""

/-- An untyped value stored in a script-facing generic field mapping
(the model of Go's interface\x7b\x7d values as they occur here). -/
inductive JSVal where
  | vstr (s : String)
  | vnat (n : Nat)
  | vbool (b : Bool)
  | vnull
  deriving DecidableEq, Repr

/-- JSON encoding of one generic value. -/
def jsonVal : JSVal → String
  | .vstr s => jsonStr s
  | .vnat n => natDec n
  | .vbool b => goBool b
  | .vnull => "null"

/-- The entries of a Go map[string]interface\x7b\x7d. -/
abbrev JSEntries := List (String × JSVal)

/-- A Go map[string]interface\x7b\x7d value; `none` models the nil map
(the zero value of a map-typed slot). -/
abbrev JSMap := Option JSEntries

/-- JSON encoding of one key/value pair. -/
def jsonEntry (e : String × JSVal) : String := jsonStr e.1 ++ ":" ++ jsonVal e.2

/-- Go's json.Marshal emits map keys in sorted order. -/
def sortEntries (l : JSEntries) : JSEntries :=
  l.insertionSort (fun a b => a.1 ≤ b.1)

/-- JSON encoding of one record/question mapping; a nil map encodes as
null, as Go's json.Marshal does. -/
def jsonSlot : JSMap → String
  | none => "null"
  | some l => "\x7b" ++ sepJoin "," ((sortEntries l).map jsonEntry) ++ "\x7d"

/-- JSON encoding of a whole list of mappings. -/
def jsonList (l : List JSMap) : String := "[" ++ sepJoin "," (l.map jsonSlot) ++ "]"

/-- Header of a miekg/dns Msg, the fields this unit touches. -/
structure MsgHdr where
  Id : Nat
  Response : Bool
  Opcode : Int
  Authoritative : Bool
  Truncated : Bool
  RecursionDesired : Bool
  RecursionAvailable : Bool
  Zero : Bool
  AuthenticatedData : Bool
  CheckingDisabled : Bool
  Rcode : Int
  deriving DecidableEq, Repr

/-- A wire question (dns.Question); Qtype and Qclass are uint16. -/
structure Question where
  Name : String
  Qtype : Nat
  Qclass : Nat
  deriving DecidableEq, Repr

/-- A decoded wire message (dns.Msg); resource records stay abstract
(type α) because the per-record codec is an external collaborator. -/
structure Msg (α : Type) where
  MsgHdr : MsgHdr
  Compress : Bool
  Question : List Question
  Answer : List α
  Ns : List α
  Extra : List α
  deriving Repr

/-- An address-book endpoint (session LAN entry). -/
structure Endpoint where
  HwAddress : String
  Alias : String
  deriving DecidableEq, Repr

/-- Script-facing header mirror (JSQueryHeader in the source). -/
structure JSQueryHeader where
  AuthenticatedData : Bool
  Authoritative : Bool
  CheckingDisabled : Bool
  Id : Nat
  Opcode : Int
  Rcode : Int
  RecursionAvailable : Bool
  RecursionDesired : Bool
  Response : Bool
  Truncated : Bool
  Zero : Bool
  deriving DecidableEq, Repr

/-- The generic, script-facing representation (JSQuery in the source).
Client is a Go map[string]string, modelled as a total lookup function
returning "" for absent keys, exactly the Go indexing semantics. -/
structure JSQuery where
  Answers : List JSMap
  Client : String → String
  Compress : Bool
  Extras : List JSMap
  Header : JSQueryHeader
  Nameservers : List JSMap
  Questions : List JSMap
  refHash : String

/-- The header portion of the fingerprint: the source's
Sprintf("%t.%t.%t.%d.%d.%d.%t.%t.%t.%t.%t", ...) inside NewHash. -/
def headerHash (h : JSQueryHeader) : String :=
  goBool h.AuthenticatedData ++ "." ++ goBool h.Authoritative ++ "." ++
  goBool h.CheckingDisabled ++ "." ++ natDec h.Id ++ "." ++
  goInt h.Opcode ++ "." ++ goInt h.Rcode ++ "." ++
  goBool h.RecursionAvailable ++ "." ++ goBool h.RecursionDesired ++ "." ++
  goBool h.Response ++ "." ++ goBool h.Truncated ++ "." ++ goBool h.Zero

/-- JSQuery.NewHash: fingerprint over the JSON-marshalled record and
question lists, the client IP, the compression flag and the header. -/
def NewHash (j : JSQuery) : String :=
  jsonList j.Answers ++ "." ++ j.Client "IP" ++ "." ++ goBool j.Compress ++ "." ++
  jsonList j.Extras ++ "." ++ headerHash j.Header ++ "." ++
  jsonList j.Nameservers ++ "." ++ jsonList j.Questions

/-- The seventeen dot-separated components of the fingerprint. -/
def hashParts (j : JSQuery) : List String :=
  [jsonList j.Answers, j.Client "IP", goBool j.Compress, jsonList j.Extras,
   goBool j.Header.AuthenticatedData, goBool j.Header.Authoritative,
   goBool j.Header.CheckingDisabled, natDec j.Header.Id,
   goInt j.Header.Opcode, goInt j.Header.Rcode,
   goBool j.Header.RecursionAvailable, goBool j.Header.RecursionDesired,
   goBool j.Header.Response, goBool j.Header.Truncated, goBool j.Header.Zero,
   jsonList j.Nameservers, jsonList j.Questions]

/-- JSQuery.UpdateHash: overwrite the stored baseline fingerprint.
Methods on the pointer receiver are embedded state-passing: they return
the updated JSQuery. -/
def UpdateHash (j : JSQuery) : Unit × JSQuery :=
  ((), { j with refHash := NewHash j })

/-- JSQuery.WasModified: compares the current fingerprint with the
stored baseline; returns its receiver unchanged. -/
def WasModified (j : JSQuery) : Bool × JSQuery :=
  (NewHash j != j.refHash, j)

/-- The per-index conversion loop of NewJSQuery over one record list:
the slice is pre-allocated with make(..., len), a failed conversion
logs the error and leaves the zero-value nil map in its slot. -/
def convSlots (enc : α → Except String JSEntries) : List α → List JSMap × List String
  | [] => ([], [])
  | r :: rest =>
    let tail := convSlots enc rest
    match enc r with
    | .ok m => (some m :: tail.1, tail.2)
    | .error e => (none :: tail.1, e :: tail.2)

/-- The per-record reconstruction loop of ToQuery over one generic list:
starts from an empty slice and appends each successfully decoded record,
logging and skipping failures. -/
def convRRs (dec : JSMap → Except String α) : List JSMap → List α × List String
  | [] => ([], [])
  | m :: rest =>
    let tail := convRRs dec rest
    match dec m with
    | .ok r => (r :: tail.1, tail.2)
    | .error e => (tail.1, e :: tail.2)

/-- Lookup in the entry list of a generic mapping. -/
def lookupEntries : JSEntries → String → Option JSVal
  | [], _ => none
  | (k', v) :: rest, k => if k' = k then some v else lookupEntries rest k

/-- Field access on a possibly-nil generic mapping. -/
def findProp : JSMap → String → Option JSVal
  | none, _ => none
  | some entries, k => lookupEntries entries k

/-- Modelled from the spec: the field-coercion helper jsPropToString
(declared outside the given source file) coerces a generic field to a
string; a non-string or missing value coerces to the empty string. -/
def jsPropToString (m : JSMap) (k : String) : String :=
  match findProp m k with
  | some (.vstr s) => s
  | _ => ""

/-- Modelled from the spec: the field-coercion helper jsPropToUint16
(declared outside the given source file) coerces a generic field to an
unsigned 16-bit integer; a non-numeric or missing value coerces to
zero. -/
def jsPropToUint16 (m : JSMap) (k : String) : Nat :=
  match findProp m k with
  | some (.vnat n) => n % 65536
  | _ => 0

/-- NewJSQuery: build the generic representation from a wire message
and the client IP.  The record codec (NewJSResourceRecord) and the LAN
address book (session.I.Lan.GetByIp) are external collaborators passed
as parameters; log.Error calls are collected in the returned list. -/
def NewJSQuery (enc : α → Except String JSEntries) (lan : String → Option Endpoint)
    (query : Msg α) (clientIP : String) : JSQuery × List String :=
  let ca := convSlots enc query.Answer
  let ce := convSlots enc query.Extra
  let cn := convSlots enc query.Ns
  let questions : List JSMap := query.Question.map (fun q =>
    some [("Name", JSVal.vstr q.Name), ("Qtype", JSVal.vnat q.Qtype),
      ("Qclass", JSVal.vnat q.Qclass)])
  let clientMAC := match lan clientIP with
    | some endpoint => endpoint.HwAddress
    | none => ""
  let clientAlias := match lan clientIP with
    | some endpoint => endpoint.Alias
    | none => ""
  let client : String → String := fun k =>
    if k = "IP" then clientIP
    else if k = "MAC" then clientMAC
    else if k = "Alias" then clientAlias
    else ""
  let jsquery : JSQuery :=
    { Answers := ca.1
      Client := client
      Compress := query.Compress
      Extras := ce.1
      Header :=
        { AuthenticatedData := query.MsgHdr.AuthenticatedData
          Authoritative := query.MsgHdr.Authoritative
          CheckingDisabled := query.MsgHdr.CheckingDisabled
          Id := query.MsgHdr.Id
          Opcode := query.MsgHdr.Opcode
          Rcode := query.MsgHdr.Rcode
          RecursionAvailable := query.MsgHdr.RecursionAvailable
          RecursionDesired := query.MsgHdr.RecursionDesired
          Response := query.MsgHdr.Response
          Truncated := query.MsgHdr.Truncated
          Zero := query.MsgHdr.Zero }
      Nameservers := cn.1
      Questions := questions
      refHash := "" }
  ((UpdateHash jsquery).2, ca.2 ++ ce.2 ++ cn.2)

/-- JSQuery.ToQuery: rebuild a fresh wire message from the (possibly
mutated) generic representation.  The reverse record codec (ToRR) is an
external collaborator passed as a parameter; log.Error calls are
collected in the returned list; the receiver is returned unchanged. -/
def ToQuery (dec : JSMap → Except String α) (j : JSQuery) :
    (Msg α × List String) × JSQuery :=
  let ca := convRRs dec j.Answers
  let ce := convRRs dec j.Extras
  let cn := convRRs dec j.Nameservers
  let questions : List Question := j.Questions.map (fun q =>
    { Name := jsPropToString q "Name"
      Qtype := jsPropToUint16 q "Qtype"
      Qclass := jsPropToUint16 q "Qclass" })
  (({ MsgHdr :=
        { Id := j.Header.Id
          Response := j.Header.Response
          Opcode := j.Header.Opcode
          Authoritative := j.Header.Authoritative
          Truncated := j.Header.Truncated
          RecursionDesired := j.Header.RecursionDesired
          RecursionAvailable := j.Header.RecursionAvailable
          Zero := j.Header.Zero
          AuthenticatedData := j.Header.AuthenticatedData
          CheckingDisabled := j.Header.CheckingDisabled
          Rcode := j.Header.Rcode }
      Compress := j.Compress
      Question := questions
      Answer := ca.1
      Ns := cn.1
      Extra := ce.1 }, ca.2 ++ ce.2 ++ cn.2), j)

/-- Set an existing key of a generic mapping to a new value (a script
assignment like q["Name"] = v; assignment into an existing key replaces
its value and keeps the key set). -/
def setProp (m : JSMap) (k : String) (v : JSVal) : JSMap :=
  match m with
  | none => none
  | some entries => some (entries.map fun e => if e.1 = k then (e.1, v) else e)

/-- One elementary script mutation: set a single header field, set one
field of one question mapping, or append/remove one record mapping. -/
inductive Mutation where
  | setAuthenticatedData (b : Bool)
  | setAuthoritative (b : Bool)
  | setCheckingDisabled (b : Bool)
  | setId (n : Nat)
  | setOpcode (i : Int)
  | setRcode (i : Int)
  | setRecursionAvailable (b : Bool)
  | setRecursionDesired (b : Bool)
  | setResponse (b : Bool)
  | setTruncated (b : Bool)
  | setZero (b : Bool)
  | setQuestionField (i : Nat) (k : String) (v : JSVal)
  | appendAnswer (m : JSMap)
  | appendExtra (m : JSMap)
  | appendNameserver (m : JSMap)
  | removeAnswer (i : Nat)
  | removeExtra (i : Nat)
  | removeNameserver (i : Nat)

def applyMutation : Mutation → JSQuery → JSQuery
  | .setAuthenticatedData b, j => { j with Header := { j.Header with AuthenticatedData := b } }
  | .setAuthoritative b, j => { j with Header := { j.Header with Authoritative := b } }
  | .setCheckingDisabled b, j => { j with Header := { j.Header with CheckingDisabled := b } }
  | .setId n, j => { j with Header := { j.Header with Id := n } }
  | .setOpcode i, j => { j with Header := { j.Header with Opcode := i } }
  | .setRcode i, j => { j with Header := { j.Header with Rcode := i } }
  | .setRecursionAvailable b, j => { j with Header := { j.Header with RecursionAvailable := b } }
  | .setRecursionDesired b, j => { j with Header := { j.Header with RecursionDesired := b } }
  | .setResponse b, j => { j with Header := { j.Header with Response := b } }
  | .setTruncated b, j => { j with Header := { j.Header with Truncated := b } }
  | .setZero b, j => { j with Header := { j.Header with Zero := b } }
  | .setQuestionField i k v, j =>
    { j with Questions := j.Questions.set i (setProp (j.Questions.getD i none) k v) }
  | .appendAnswer m, j => { j with Answers := j.Answers ++ [m] }
  | .appendExtra m, j => { j with Extras := j.Extras ++ [m] }
  | .appendNameserver m, j => { j with Nameservers := j.Nameservers ++ [m] }
  | .removeAnswer i, j => { j with Answers := j.Answers.eraseIdx i }
  | .removeExtra i, j => { j with Extras := j.Extras.eraseIdx i }
  | .removeNameserver i, j => { j with Nameservers := j.Nameservers.eraseIdx i }

/-- The mutation genuinely changes the JSQuery: a set field gets a value
different from the current one (on a key the question mapping has), a
removal removes an existing index; an append always changes the list. -/
def changes : Mutation → JSQuery → Prop
  | .setAuthenticatedData b, j => b ≠ j.Header.AuthenticatedData
  | .setAuthoritative b, j => b ≠ j.Header.Authoritative
  | .setCheckingDisabled b, j => b ≠ j.Header.CheckingDisabled
  | .setId n, j => n ≠ j.Header.Id
  | .setOpcode i, j => i ≠ j.Header.Opcode
  | .setRcode i, j => i ≠ j.Header.Rcode
  | .setRecursionAvailable b, j => b ≠ j.Header.RecursionAvailable
  | .setRecursionDesired b, j => b ≠ j.Header.RecursionDesired
  | .setResponse b, j => b ≠ j.Header.Response
  | .setTruncated b, j => b ≠ j.Header.Truncated
  | .setZero b, j => b ≠ j.Header.Zero
  | .setQuestionField i k v, j => i < j.Questions.length ∧
      ∃ w, findProp (j.Questions.getD i none) k = some w ∧ w ≠ v
  | .appendAnswer _, _ => True
  | .appendExtra _, _ => True
  | .appendNameserver _, _ => True
  | .removeAnswer i, j => i < j.Answers.length
  | .removeExtra i, j => i < j.Extras.length
  | .removeNameserver i, j => i < j.Nameservers.length

def sampleHeader : JSQueryHeader :=
  { AuthenticatedData := false, Authoritative := false, CheckingDisabled := false,
    Id := 42, Opcode := 0, Rcode := 0, RecursionAvailable := false,
    RecursionDesired := true, Response := false, Truncated := false, Zero := false }

def sampleClient : String → String := fun k =>
  if k = "IP" then "1.2.3.4" else if k = "MAC" then "aa:bb:cc:dd:ee:ff" else ""

def sampleClientB : String → String := fun k =>
  if k = "IP" then "1.2.3.4" else if k = "MAC" then "11:22:33:44:55:66"
  else if k = "Proto" then "udp" else ""

def sampleQuestionMap : JSMap :=
  some [("Name", JSVal.vstr "example.com."), ("Qtype", JSVal.vnat 1),
    ("Qclass", JSVal.vnat 1)]

def sampleJSQuery : JSQuery :=
  { Answers := [], Client := sampleClient, Compress := false, Extras := [],
    Header := sampleHeader, Nameservers := [], Questions := [sampleQuestionMap],
    refHash := "" }

def sampleMsg : Msg Nat :=
  { MsgHdr :=
      { Id := 42, Response := false, Opcode := 0, Authoritative := false,
        Truncated := false, RecursionDesired := true, RecursionAvailable := false,
        Zero := false, AuthenticatedData := false, CheckingDisabled := false,
        Rcode := 0 }
    Compress := false
    Question := [{ Name := "example.com.", Qtype := 1, Qclass := 1 }]
    Answer := [7]
    Ns := []
    Extra := [3] }

/-- A sample codec for witnesses: a record n encodes to one field V = n. -/
def sampleEnc (n : Nat) : Except String JSEntries := .ok [("V", JSVal.vnat n)]

/-- The matching sample reverse codec. -/
def sampleDec (m : JSMap) : Except String Nat :=
  match findProp m "V" with
  | some (.vnat n) => .ok n
  | _ => .error "unsupported record"

/-- A sample LAN address book. -/
def sampleLan : String → Option Endpoint := fun ip =>
  if ip = "1.2.3.4" then some { HwAddress := "aa:bb:cc:dd:ee:ff", Alias := "laptop" }
  else none

/-- A question mapping with a wrong-typed Name and Qtype and a missing
Qclass, for the C6 witness. -/
def malformedQuestionMap : JSMap :=
  some [("Name", JSVal.vnat 5), ("Qtype", JSVal.vstr "A")]

/-! ## Theorems: rendering injectivity, operation lemmas and the claims -/

theorem goBool_inj {a b : Bool} (h : goBool a = goBool b) : a = b := by
  cases a <;> cases b <;> simp_all [goBool]

theorem digitChar_inj_lt : ∀ a < 16, ∀ b < 16,
    Nat.digitChar a = Nat.digitChar b → a = b := by decide

theorem digitChar_isDigit : ∀ a < 10, (Nat.digitChar a).isDigit = true := by
  decide

theorem map_digitChar_inj : ∀ {l₁ l₂ : List Nat},
    (∀ d ∈ l₁, d < 10) → (∀ d ∈ l₂, d < 10) →
    l₁.map Nat.digitChar = l₂.map Nat.digitChar → l₁ = l₂
  | [], [], _, _, _ => rfl
  | [], _ :: _, _, _, h => by simp at h
  | _ :: _, [], _, _, h => by simp at h
  | a :: t₁, b :: t₂, h₁, h₂, h => by
    simp only [List.map_cons, List.cons.injEq] at h
    have ha : a < 10 := h₁ a (by simp)
    have hb : b < 10 := h₂ b (by simp)
    have hab : a = b :=
      digitChar_inj_lt a (by omega) b (by omega) h.1
    have ht : t₁ = t₂ :=
      map_digitChar_inj (fun d hd => h₁ d (by simp [hd]))
        (fun d hd => h₂ d (by simp [hd])) h.2
    rw [hab, ht]

theorem decDigits_lt (k : Nat) : ∀ d ∈ decDigits k, d < 10 := by
  intro d hd
  unfold decDigits at hd
  by_cases h : k = 0
  · simp [h] at hd
    omega
  · simp only [if_neg h, List.mem_reverse] at hd
    exact Nat.digits_lt_base (by norm_num) hd

theorem decDigits_inj {m n : Nat} (h : decDigits m = decDigits n) : m = n := by
  unfold decDigits at h
  by_cases hm : m = 0 <;> by_cases hn : n = 0
  · rw [hm, hn]
  · exfalso
    simp only [if_pos hm, if_neg hn] at h
    have hdig : Nat.digits 10 n = [0] := by
      have := congrArg List.reverse h
      simpa using this.symm
    have h1 := Nat.ofDigits_digits 10 n
    rw [hdig] at h1
    simp [Nat.ofDigits] at h1
    exact hn h1.symm
  · exfalso
    simp only [if_neg hm, if_pos hn] at h
    have hdig : Nat.digits 10 m = [0] := by
      have := congrArg List.reverse h
      simpa using this
    have h1 := Nat.ofDigits_digits 10 m
    rw [hdig] at h1
    simp [Nat.ofDigits] at h1
    exact hm h1.symm
  · simp only [if_neg hm, if_neg hn] at h
    have hdig : Nat.digits 10 m = Nat.digits 10 n := by
      have := congrArg List.reverse h
      simpa using this
    calc m = Nat.ofDigits 10 (Nat.digits 10 m) := (Nat.ofDigits_digits 10 m).symm
      _ = Nat.ofDigits 10 (Nat.digits 10 n) := by rw [hdig]
      _ = n := Nat.ofDigits_digits 10 n

theorem natDec_inj {m n : Nat} (h : natDec m = natDec n) : m = n := by
  have hdata : (decDigits m).map Nat.digitChar = (decDigits n).map Nat.digitChar :=
    congrArg String.data h
  exact decDigits_inj (map_digitChar_inj
    (fun d hd => decDigits_lt m d hd) (fun d hd => decDigits_lt n d hd) hdata)

theorem natDec_ne_nil (n : Nat) : (natDec n).data ≠ [] := by
  show (decDigits n).map Nat.digitChar ≠ []
  unfold decDigits
  by_cases h : n = 0
  · simp [h]
  · simp only [if_neg h]
    intro hc
    have : Nat.digits 10 n = [] := by simpa using hc
    exact (Nat.digits_ne_nil_iff_ne_zero.mpr h) this

theorem natDec_all_digits (n : Nat) : ∀ c ∈ (natDec n).data, c.isDigit = true := by
  intro c hc
  have hc : c ∈ (decDigits n).map Nat.digitChar := hc
  simp only [List.mem_map] at hc
  obtain ⟨d, hd, rfl⟩ := hc
  exact digitChar_isDigit d (decDigits_lt n d hd)

theorem goInt_inj {i j : Int} (h : goInt i = goInt j) : i = j := by
  unfold goInt at h
  by_cases hi : i < 0 <;> by_cases hj : j < 0
  · simp only [if_pos hi, if_pos hj] at h
    have hdata := congrArg String.data h
    simp only [String.data_append] at hdata
    have : (natDec (-i).toNat).data = (natDec (-j).toNat).data :=
      List.append_cancel_left hdata
    have := natDec_inj (String.ext this)
    omega
  · exfalso
    simp only [if_pos hi, if_neg hj] at h
    have hdata : '-' :: (natDec (-i).toNat).data = (natDec j.toNat).data := by
      have := congrArg String.data h
      simpa using this
    have hmem : '-' ∈ (natDec j.toNat).data := by
      rw [← hdata]
      exact List.mem_cons_self _ _
    have := natDec_all_digits j.toNat '-' hmem
    simp [Char.isDigit] at this
  · exfalso
    simp only [if_neg hi, if_pos hj] at h
    have hdata : '-' :: (natDec (-j).toNat).data = (natDec i.toNat).data := by
      have := congrArg String.data h
      simpa using this.symm
    have hmem : '-' ∈ (natDec i.toNat).data := by
      rw [← hdata]
      exact List.mem_cons_self _ _
    have := natDec_all_digits i.toNat '-' hmem
    simp [Char.isDigit] at this
  · simp only [if_neg hi, if_neg hj] at h
    have := natDec_inj h
    omega

theorem str_peel {a b c : String} (h : a ++ b = a ++ c) : b = c := by
  have hdata := congrArg String.data h
  simp only [String.data_append] at hdata
  exact String.ext (List.append_cancel_left hdata)

theorem str_peelR {a b c : String} (h : a ++ c = b ++ c) : a = b := by
  have hdata := congrArg String.data h
  simp only [String.data_append] at hdata
  exact String.ext (List.append_cancel_right hdata)

theorem sepJoin_nil (sep : String) : sepJoin sep [] = "" := rfl

theorem sepJoin_single (sep s : String) : sepJoin sep [s] = s := rfl

theorem sepJoin_cons₂ (sep s t : String) (rest : List String) :
    sepJoin sep (s :: t :: rest) = s ++ sep ++ sepJoin sep (t :: rest) := rfl

/-- Changing exactly one component of a separator join (all others kept
verbatim) changes the joined string. -/
theorem sepJoin_update_ne (sep : String) :
    ∀ (pre : List String) (b b' : String) (post : List String), b ≠ b' →
      sepJoin sep (pre ++ b :: post) ≠ sepJoin sep (pre ++ b' :: post)
  | [], b, b', [], hne => by
    simpa [sepJoin_single] using hne
  | [], b, b', p :: t, hne => by
    intro h
    rw [List.nil_append, List.nil_append, sepJoin_cons₂, sepJoin_cons₂,
      String.append_assoc, String.append_assoc] at h
    exact hne (str_peelR h)
  | p :: pre, b, b', post, hne => by
    intro h
    have hsh : ∀ (x : List String),
        sepJoin sep (p :: (x ++ b :: post)) = p ++ sep ++ sepJoin sep (x ++ b :: post) := by
      intro x
      rcases x with _ | ⟨y, ys⟩ <;> simp [sepJoin_cons₂]
    have hsh' : ∀ (x : List String),
        sepJoin sep (p :: (x ++ b' :: post)) = p ++ sep ++ sepJoin sep (x ++ b' :: post) := by
      intro x
      rcases x with _ | ⟨y, ys⟩ <;> simp [sepJoin_cons₂]
    rw [List.cons_append, List.cons_append, hsh pre, hsh' pre] at h
    exact sepJoin_update_ne sep pre b b' post hne (str_peel h)

theorem sepJoin_length (sep : String) : ∀ (l : List String),
    (sepJoin sep l).length = (l.map String.length).sum + sep.length * (l.length - 1)
  | [] => by simp [sepJoin_nil]
  | [s] => by simp [sepJoin_single]
  | s :: t :: rest => by
    rw [sepJoin_cons₂]
    have ih := sepJoin_length sep (t :: rest)
    simp only [String.length_append, ih, List.map_cons, List.sum_cons, List.length_cons,
      Nat.add_sub_cancel]
    rw [Nat.mul_succ]
    omega

/-- Inserting a component of positive length into a separator join makes
the joined string strictly longer. -/
theorem sepJoin_insert_length_lt (sep : String) (l₁ l₂ : List String) (x : String)
    (hx : 0 < x.length) :
    (sepJoin sep (l₁ ++ l₂)).length < (sepJoin sep (l₁ ++ x :: l₂)).length := by
  rcases Nat.eq_zero_or_pos (l₁.length + l₂.length) with h0 | hpos
  · have hl₁ : l₁ = [] := List.length_eq_zero.mp (by omega)
    have hl₂ : l₂ = [] := List.length_eq_zero.mp (by omega)
    subst hl₁; subst hl₂
    simpa [sepJoin_nil, sepJoin_single] using hx
  · rw [sepJoin_length, sepJoin_length]
    simp only [List.map_append, List.sum_append, List.length_append, List.map_cons,
      List.sum_cons, List.length_cons]
    have heq : l₁.length + (l₂.length + 1) - 1 = (l₁.length + l₂.length - 1) + 1 := by
      omega
    rw [heq, Nat.mul_succ]
    omega

theorem hexVal_digitChar : ∀ a < 16, hexVal (Nat.digitChar a) = a := by decide

theorem unesc_escChar (c : Char) (r : List Char) :
    unesc (escChar c ++ r) = c :: unesc r := by
  unfold escChar
  by_cases h1 : c = '"'
  · subst h1; simp [unesc]
  · rw [if_neg h1]
    by_cases h2 : c = '\\'
    · subst h2; simp [unesc]
    · rw [if_neg h2]
      by_cases h3 : c = '\n'
      · subst h3; simp [unesc]
      · rw [if_neg h3]
        by_cases h4 : c = '\r'
        · subst h4; simp [unesc]
        · rw [if_neg h4]
          by_cases h5 : c = '\t'
          · subst h5; simp [unesc]
          · rw [if_neg h5]
            by_cases h6 : c.toNat < 32
            · rw [if_pos h6]
              simp only [List.cons_append, List.nil_append, unesc]
              have hv : ((hexVal '0' * 16 + hexVal '0') * 16 +
                  hexVal (Nat.digitChar (c.toNat / 16))) * 16 +
                  hexVal (Nat.digitChar (c.toNat % 16)) = c.toNat := by
                rw [hexVal_digitChar (c.toNat / 16) (by omega),
                  hexVal_digitChar (c.toNat % 16) (by omega)]
                have h0 : hexVal '0' = 0 := by decide
                rw [h0]
                omega
              rw [hv, Char.ofNat_toNat]
              simp
            · rw [if_neg h6]
              by_cases h7 : c = '<'
              · subst h7
                simp only [List.cons_append, List.nil_append, unesc]
                have hv : ((hexVal '0' * 16 + hexVal '0') * 16 + hexVal '3') * 16 +
                    hexVal 'c' = ('<').toNat := by decide
                rw [hv, Char.ofNat_toNat]
                simp
              · rw [if_neg h7]
                by_cases h8 : c = '>'
                · subst h8
                  simp only [List.cons_append, List.nil_append, unesc]
                  have hv : ((hexVal '0' * 16 + hexVal '0') * 16 + hexVal '3') * 16 +
                      hexVal 'e' = ('>').toNat := by decide
                  rw [hv, Char.ofNat_toNat]
                  simp
                · rw [if_neg h8]
                  by_cases h9 : c = '&'
                  · subst h9
                    simp only [List.cons_append, List.nil_append, unesc]
                    have hv : ((hexVal '0' * 16 + hexVal '0') * 16 + hexVal '2') * 16 +
                        hexVal '6' = ('&').toNat := by decide
                    rw [hv, Char.ofNat_toNat]
                    simp
                  · rw [if_neg h9]
                    by_cases h10 : c.toNat = 8232
                    · rw [if_pos h10]
                      simp only [List.cons_append, List.nil_append, unesc]
                      have hv : ((hexVal '2' * 16 + hexVal '0') * 16 +
                          hexVal '2') * 16 + hexVal '8' = c.toNat := by
                        rw [h10]; decide
                      rw [hv, Char.ofNat_toNat]
                      simp
                    · rw [if_neg h10]
                      by_cases h11 : c.toNat = 8233
                      · rw [if_pos h11]
                        simp only [List.cons_append, List.nil_append, unesc]
                        have hv : ((hexVal '2' * 16 + hexVal '0') * 16 +
                            hexVal '2') * 16 + hexVal '9' = c.toNat := by
                          rw [h11]; decide
                        rw [hv, Char.ofNat_toNat]
                        simp
                      · rw [if_neg h11]
                        simp only [List.cons_append, List.nil_append]
                        rw [unesc.eq_def]
                        split <;> simp_all

theorem unesc_escList : ∀ l : List Char, unesc (escList l) = l
  | [] => rfl
  | c :: r => by
    rw [escList, unesc_escChar, unesc_escList r]

theorem escList_inj {l₁ l₂ : List Char} (h : escList l₁ = escList l₂) : l₁ = l₂ := by
  have h1 := unesc_escList l₁
  rw [h, unesc_escList l₂] at h1
  exact h1.symm

theorem jsonStr_data (s : String) :
    (jsonStr s).data = '"' :: (escList s.data ++ ['"']) := by
  simp [jsonStr, escString, String.data_append]

theorem jsonStr_inj {s₁ s₂ : String} (h : jsonStr s₁ = jsonStr s₂) : s₁ = s₂ := by
  have hdata := congrArg String.data h
  rw [jsonStr_data, jsonStr_data] at hdata
  have h2 : escList s₁.data ++ ['"'] = escList s₂.data ++ ['"'] :=
    (List.cons.injEq _ _ _ _ ▸ hdata).2
  exact String.ext (escList_inj (List.append_cancel_right h2))

theorem natDec_head (n : Nat) :
    ∃ c t, (natDec n).data = c :: t ∧ c.isDigit = true := by
  rcases hr : (natDec n).data with _ | ⟨c, t⟩
  · exact absurd hr (natDec_ne_nil n)
  · exact ⟨c, t, rfl, natDec_all_digits n c (by rw [hr]; exact List.mem_cons_self _ _)⟩

theorem jsonVal_inj : ∀ {v w : JSVal}, jsonVal v = jsonVal w → v = w := by
  intro v w h
  have hd := congrArg String.data h
  cases v <;> cases w <;> simp only [jsonVal] at h hd ⊢
  · exact congrArg JSVal.vstr (jsonStr_inj h)
  · obtain ⟨c, t, hct, hdig⟩ := natDec_head _
    rw [jsonStr_data, hct] at hd
    have : ('"' : Char) = c := (List.cons.injEq _ _ _ _ ▸ hd).1
    rw [← this] at hdig
    simp [Char.isDigit] at hdig
  · rename_i s b
    cases b <;> rw [jsonStr_data] at hd <;> simp [goBool] at hd
  · rw [jsonStr_data] at hd
    simp at hd
  · obtain ⟨c, t, hct, hdig⟩ := natDec_head _
    rw [jsonStr_data, hct] at hd
    have : c = '"' := (List.cons.injEq _ _ _ _ ▸ hd).1
    rw [this] at hdig
    simp [Char.isDigit] at hdig
  · exact congrArg JSVal.vnat (natDec_inj h)
  · rename_i n b
    obtain ⟨c, t, hct, hdig⟩ := natDec_head n
    rw [hct] at hd
    cases b <;> simp [goBool] at hd <;> rw [hd.1] at hdig <;>
      simp [Char.isDigit] at hdig
  · rename_i n
    obtain ⟨c, t, hct, hdig⟩ := natDec_head n
    rw [hct] at hd
    injection hd with h1 h2
    rw [h1] at hdig
    simp [Char.isDigit] at hdig
  · rename_i b s
    cases b <;> rw [jsonStr_data] at hd <;> simp [goBool] at hd
  · rename_i b n
    obtain ⟨c, t, hct, hdig⟩ := natDec_head n
    rw [hct] at hd
    cases b <;> simp [goBool] at hd <;> rw [← hd.1] at hdig <;>
      simp [Char.isDigit] at hdig
  · rename_i a b
    cases a <;> cases b <;> simp [goBool] at h ⊢
  · rename_i b
    cases b <;> simp [goBool] at h
  · rw [jsonStr_data] at hd
    simp at hd
  · rename_i n
    obtain ⟨c, t, hct, hdig⟩ := natDec_head n
    rw [hct] at hd
    injection hd with h1 h2
    rw [← h1] at hdig
    simp [Char.isDigit] at hdig
  · rename_i b
    cases b <;> simp [goBool] at h

theorem jsonSlot_length_pos (m : JSMap) : 0 < (jsonSlot m).length := by
  cases m with
  | none => decide
  | some l =>
    simp only [jsonSlot, String.length_append]
    have : (("\x7b" : String)).length = 1 := rfl
    omega

theorem jsonList_insert_ne (l₁ l₂ : List JSMap) (x : JSMap) :
    jsonList (l₁ ++ x :: l₂) ≠ jsonList (l₁ ++ l₂) := by
  intro h
  have hlen := congrArg String.length h
  simp only [jsonList, String.length_append, List.map_append, List.map_cons] at hlen
  have hlt := sepJoin_insert_length_lt "," (l₁.map jsonSlot) (l₂.map jsonSlot)
    (jsonSlot x) (jsonSlot_length_pos x)
  omega

theorem bracket_peel {a b : String} (h : "[" ++ a ++ "]" = "[" ++ b ++ "]") :
    a = b := by
  rw [String.append_assoc, String.append_assoc] at h
  exact str_peelR (str_peel h)

theorem jsonList_update_ne (l₁ l₂ : List JSMap) (x y : JSMap)
    (hxy : jsonSlot x ≠ jsonSlot y) :
    jsonList (l₁ ++ x :: l₂) ≠ jsonList (l₁ ++ y :: l₂) := by
  intro h
  have hin := bracket_peel h
  rw [List.map_append, List.map_append, List.map_cons, List.map_cons] at hin
  exact sepJoin_update_ne "," (l₁.map jsonSlot) (jsonSlot x) (jsonSlot y)
    (l₂.map jsonSlot) hxy hin

theorem NewHash_eq_join (j : JSQuery) : NewHash j = sepJoin "." (hashParts j) := by
  simp [NewHash, headerHash, hashParts, sepJoin_cons₂, sepJoin_single,
    String.append_assoc]

theorem convSlots_fst (enc : α → Except String JSEntries) : ∀ l : List α,
    (convSlots enc l).1 = l.map (fun r => (enc r).toOption)
  | [] => rfl
  | r :: rest => by
    simp only [convSlots, List.map_cons]
    cases h : enc r <;> simp [h, Except.toOption, convSlots_fst enc rest]

theorem convSlots_snd (enc : α → Except String JSEntries) : ∀ l : List α,
    (convSlots enc l).2 = l.filterMap (fun r =>
      match enc r with | .error e => some e | .ok _ => none)
  | [] => rfl
  | r :: rest => by
    simp only [convSlots, List.filterMap_cons]
    cases h : enc r <;> simp [h, convSlots_snd enc rest]

theorem convRRs_fst (dec : JSMap → Except String α) : ∀ l : List JSMap,
    (convRRs dec l).1 = l.filterMap (fun m => (dec m).toOption)
  | [] => rfl
  | m :: rest => by
    simp only [convRRs, List.filterMap_cons]
    cases h : dec m <;> simp [h, Except.toOption, convRRs_fst dec rest]

theorem convRRs_snd (dec : JSMap → Except String α) : ∀ l : List JSMap,
    (convRRs dec l).2 = l.filterMap (fun m =>
      match dec m with | .error e => some e | .ok _ => none)
  | [] => rfl
  | m :: rest => by
    simp only [convRRs, List.filterMap_cons]
    cases h : dec m <;> simp [h, convRRs_snd dec rest]

theorem convRRs_append (dec : JSMap → Except String α) (l₁ l₂ : List JSMap) :
    convRRs dec (l₁ ++ l₂) =
      ((convRRs dec l₁).1 ++ (convRRs dec l₂).1,
       (convRRs dec l₁).2 ++ (convRRs dec l₂).2) := by
  induction l₁ with
  | nil => simp [convRRs]
  | cons m rest ih =>
    simp only [List.cons_append, convRRs]
    cases h : dec m <;> simp [h, ih]

theorem convRRs_all_ok (dec : JSMap → Except String α) : ∀ l : List JSMap,
    (∀ m ∈ l, ∃ r, dec m = .ok r) →
    (convRRs dec l).1.length = l.length ∧ (convRRs dec l).2 = []
  | [], _ => ⟨rfl, rfl⟩
  | m :: rest, hall => by
    obtain ⟨r, hr⟩ := hall m (List.mem_cons_self _ _)
    have ih := convRRs_all_ok dec rest (fun x hx => hall x (List.mem_cons_of_mem _ hx))
    simp only [convRRs, hr, List.length_cons]
    exact ⟨by simp [ih.1], ih.2⟩

theorem list_decomp : ∀ (l : List β) (i : Nat) (h : i < l.length),
    l = l.take i ++ l.get ⟨i, h⟩ :: l.drop (i + 1)
  | x :: t, 0, _ => by simp
  | x :: t, i + 1, h => by
    simp only [List.take_succ_cons, List.get_cons_succ, List.drop_succ_cons,
      List.cons_append, List.cons.injEq, true_and]
    exact list_decomp t i (by simpa using h)

theorem eraseIdx_eq_take_append_drop : ∀ (l : List β) (i : Nat),
    l.eraseIdx i = l.take i ++ l.drop (i + 1)
  | [], _ => by simp [List.eraseIdx]
  | x :: t, 0 => by simp [List.eraseIdx]
  | x :: t, i + 1 => by
    simp only [List.eraseIdx, List.take_succ_cons, List.drop_succ_cons,
      List.cons_append, List.cons.injEq, true_and]
    exact eraseIdx_eq_take_append_drop t i

theorem NewHash_refHash (j : JSQuery) (h : String) :
    NewHash { j with refHash := h } = NewHash j := rfl

theorem NewJSQuery_refHash (enc : α → Except String JSEntries)
    (lan : String → Option Endpoint) (query : Msg α) (clientIP : String) :
    (NewJSQuery enc lan query clientIP).1.refHash =
      NewHash (NewJSQuery enc lan query clientIP).1 := rfl

theorem NewJSQuery_client_ip (enc : α → Except String JSEntries)
    (lan : String → Option Endpoint) (query : Msg α) (clientIP : String) :
    (NewJSQuery enc lan query clientIP).1.Client "IP" = clientIP := by
  simp [NewJSQuery, UpdateHash]

theorem NewJSQuery_questions (enc : α → Except String JSEntries)
    (lan : String → Option Endpoint) (query : Msg α) (clientIP : String) :
    (NewJSQuery enc lan query clientIP).1.Questions = query.Question.map (fun q =>
      some [("Name", JSVal.vstr q.Name), ("Qtype", JSVal.vnat q.Qtype),
        ("Qclass", JSVal.vnat q.Qclass)]) := rfl

theorem NewJSQuery_answers (enc : α → Except String JSEntries)
    (lan : String → Option Endpoint) (query : Msg α) (clientIP : String) :
    (NewJSQuery enc lan query clientIP).1.Answers = (convSlots enc query.Answer).1 := rfl

theorem NewJSQuery_extras (enc : α → Except String JSEntries)
    (lan : String → Option Endpoint) (query : Msg α) (clientIP : String) :
    (NewJSQuery enc lan query clientIP).1.Extras = (convSlots enc query.Extra).1 := rfl

theorem NewJSQuery_nameservers (enc : α → Except String JSEntries)
    (lan : String → Option Endpoint) (query : Msg α) (clientIP : String) :
    (NewJSQuery enc lan query clientIP).1.Nameservers = (convSlots enc query.Ns).1 := rfl

theorem NewJSQuery_logs (enc : α → Except String JSEntries)
    (lan : String → Option Endpoint) (query : Msg α) (clientIP : String) :
    (NewJSQuery enc lan query clientIP).2 =
      (convSlots enc query.Answer).2 ++ (convSlots enc query.Extra).2 ++
        (convSlots enc query.Ns).2 := rfl

/-- C7: for every wire message and client IP, construction stores the
fingerprint (refHash) as the last step, so that immediately after
NewJSQuery returns and before any script edit, WasModified returns
false. -/
theorem c7_fresh_query_unmodified (enc : α → Except String JSEntries)
    (lan : String → Option Endpoint) (query : Msg α) (clientIP : String) :
    (NewJSQuery enc lan query clientIP).1.refHash =
      NewHash (NewJSQuery enc lan query clientIP).1 ∧
    (WasModified (NewJSQuery enc lan query clientIP).1).1 = false := by
  refine ⟨rfl, ?_⟩
  simp [WasModified, NewJSQuery_refHash]

/-- C8: WasModified is a pure predicate: it returns true iff the
recomputed fingerprint differs from the stored baseline refHash, it
leaves the JSQuery unchanged, and repeated calls without intervening
edits return the same result. -/
theorem c8_wasModified_pure (j : JSQuery) :
    ((WasModified j).1 = true ↔ NewHash j ≠ j.refHash) ∧
    (WasModified j).2 = j ∧
    (WasModified (WasModified j).2).1 = (WasModified j).1 :=
  ⟨by simp [WasModified], rfl, rfl⟩

/-- C10: ToQuery does not mutate the JSQuery it is called on: the
receiver it returns is unchanged (all fields including refHash), so
WasModified is the same before and after calling ToQuery. -/
theorem c10_toQuery_frame (dec : JSMap → Except String α) (j : JSQuery) :
    (ToQuery dec j).2 = j ∧
    (WasModified (ToQuery dec j).2).1 = (WasModified j).1 :=
  ⟨rfl, rfl⟩

/-- C9: the fingerprint depends on the Client mapping only through its
"IP" entry: replacing the Client mapping by any mapping with the same
"IP" value (for instance changing MAC or Alias or adding keys) leaves
NewHash unchanged, hence leaves WasModified unchanged. -/
theorem c9_client_ip_only (j : JSQuery) (c : String → String)
    (hip : c "IP" = j.Client "IP") :
    NewHash { j with Client := c } = NewHash j ∧
    (WasModified { j with Client := c }).1 = (WasModified j).1 := by
  have hh : NewHash { j with Client := c } = NewHash j := by
    simp [NewHash, hip]
  exact ⟨hh, by simp [WasModified, hh]⟩

/-- Witness for C9 at a concrete JSQuery: changing the Client MAC and
adding a key while keeping the IP. -/
theorem c9_client_ip_only_witness :
    sampleClientB "IP" = sampleJSQuery.Client "IP" ∧
    (NewHash { sampleJSQuery with Client := sampleClientB } = NewHash sampleJSQuery ∧
     (WasModified { sampleJSQuery with Client := sampleClientB }).1 =
       (WasModified sampleJSQuery).1) :=
  ⟨rfl, c9_client_ip_only sampleJSQuery sampleClientB rfl⟩

/-- C4: fingerprint determinism: two JSQuery values built from the same
wire message and client IP (even under different address-book states)
hash identically, and any two generic representations with identical
mutable content (records, questions, client IP, compression, header)
hash identically. -/
theorem c4_fingerprint_deterministic
    (enc : α → Except String JSEntries) (lan₁ lan₂ : String → Option Endpoint)
    (query : Msg α) (clientIP : String) (j₁ j₂ : JSQuery)
    (hA : j₁.Answers = j₂.Answers) (hE : j₁.Extras = j₂.Extras)
    (hN : j₁.Nameservers = j₂.Nameservers) (hQ : j₁.Questions = j₂.Questions)
    (hip : j₁.Client "IP" = j₂.Client "IP") (hC : j₁.Compress = j₂.Compress)
    (hH : j₁.Header = j₂.Header) :
    NewHash (NewJSQuery enc lan₁ query clientIP).1 =
      NewHash (NewJSQuery enc lan₂ query clientIP).1 ∧
    NewHash j₁ = NewHash j₂ := by
  constructor
  · simp [NewHash, NewJSQuery_client_ip, NewJSQuery_answers, NewJSQuery_extras,
      NewJSQuery_nameservers, NewJSQuery_questions]
    rfl
  · simp [NewHash, headerHash, hA, hE, hN, hQ, hip, hC, hH]

/-- Witness for C4 at a concrete message, two different address books
and two content-equal JSQuery values. -/
theorem c4_fingerprint_deterministic_witness :
    sampleJSQuery.Client "IP" = sampleClientB "IP" ∧
    (NewHash (NewJSQuery sampleEnc sampleLan sampleMsg "1.2.3.4").1 =
       NewHash (NewJSQuery sampleEnc (fun _ => none) sampleMsg "1.2.3.4").1 ∧
     NewHash sampleJSQuery = NewHash { sampleJSQuery with Client := sampleClientB }) :=
  ⟨rfl, c4_fingerprint_deterministic sampleEnc sampleLan (fun _ => none)
    sampleMsg "1.2.3.4" sampleJSQuery { sampleJSQuery with Client := sampleClientB }
    rfl rfl rfl rfl rfl rfl rfl⟩

/-- C6: during reconstruction, a question mapping whose Qtype (resp.
Qclass) is missing or non-numeric yields a wire question with Qtype = 0
(resp. Qclass = 0), a missing or non-string Name yields the empty name,
the question list keeps its length, and no error is logged for question
fields (the log does not depend on the Questions list at all). -/
theorem c6_tolerant_question_coercion (dec : JSMap → Except String α)
    (j : JSQuery) (i : Nat) (hi : i < j.Questions.length) :
    ((ToQuery dec j).1.1.Question.length = j.Questions.length) ∧
    (∀ hq : i < (ToQuery dec j).1.1.Question.length,
      ((∀ n, findProp (j.Questions.get ⟨i, hi⟩) "Qtype" ≠ some (JSVal.vnat n)) →
        ((ToQuery dec j).1.1.Question.get ⟨i, hq⟩).Qtype = 0) ∧
      ((∀ n, findProp (j.Questions.get ⟨i, hi⟩) "Qclass" ≠ some (JSVal.vnat n)) →
        ((ToQuery dec j).1.1.Question.get ⟨i, hq⟩).Qclass = 0) ∧
      ((∀ s, findProp (j.Questions.get ⟨i, hi⟩) "Name" ≠ some (JSVal.vstr s)) →
        ((ToQuery dec j).1.1.Question.get ⟨i, hq⟩).Name = "")) ∧
    (∀ qs : List JSMap,
      (ToQuery dec { j with Questions := qs }).1.2 = (ToQuery dec j).1.2) := by
  refine ⟨by simp [ToQuery], ?_, fun qs => rfl⟩
  intro hq
  have hget : (ToQuery dec j).1.1.Question.get ⟨i, hq⟩ =
      { Name := jsPropToString (j.Questions.get ⟨i, hi⟩) "Name"
        Qtype := jsPropToUint16 (j.Questions.get ⟨i, hi⟩) "Qtype"
        Qclass := jsPropToUint16 (j.Questions.get ⟨i, hi⟩) "Qclass" } := by
    show (j.Questions.map _).get ⟨i, hq⟩ = _
    simp [List.get_eq_getElem, List.getElem_map]
  rw [hget]
  refine ⟨?_, ?_, ?_⟩
  · intro hno
    simp only [jsPropToUint16]
  · intro hno
    simp only [jsPropToUint16]
  · intro hno
    simp only [jsPropToString]

/-- Witness for C6 at a concrete malformed question mapping. -/
theorem c6_tolerant_question_coercion_witness :
    0 < ({ sampleJSQuery with Questions := [malformedQuestionMap] } : JSQuery).Questions.length ∧
    (((ToQuery sampleDec { sampleJSQuery with Questions := [malformedQuestionMap] }).1.1.Question.length =
        ({ sampleJSQuery with Questions := [malformedQuestionMap] } : JSQuery).Questions.length) ∧
     (∀ hq : 0 < (ToQuery sampleDec { sampleJSQuery with Questions := [malformedQuestionMap] }).1.1.Question.length,
       ((∀ n, findProp (({ sampleJSQuery with Questions := [malformedQuestionMap] } : JSQuery).Questions.get ⟨0, by decide⟩) "Qtype" ≠ some (JSVal.vnat n)) →
         ((ToQuery sampleDec { sampleJSQuery with Questions := [malformedQuestionMap] }).1.1.Question.get ⟨0, hq⟩).Qtype = 0) ∧
       ((∀ n, findProp (({ sampleJSQuery with Questions := [malformedQuestionMap] } : JSQuery).Questions.get ⟨0, by decide⟩) "Qclass" ≠ some (JSVal.vnat n)) →
         ((ToQuery sampleDec { sampleJSQuery with Questions := [malformedQuestionMap] }).1.1.Question.get ⟨0, hq⟩).Qclass = 0) ∧
       ((∀ s, findProp (({ sampleJSQuery with Questions := [malformedQuestionMap] } : JSQuery).Questions.get ⟨0, by decide⟩) "Name" ≠ some (JSVal.vstr s)) →
         ((ToQuery sampleDec { sampleJSQuery with Questions := [malformedQuestionMap] }).1.1.Question.get ⟨0, hq⟩).Name = "")) ∧
     (∀ qs : List JSMap,
       (ToQuery sampleDec { { sampleJSQuery with Questions := [malformedQuestionMap] } with Questions := qs }).1.2 =
         (ToQuery sampleDec { sampleJSQuery with Questions := [malformedQuestionMap] }).1.2)) :=
  ⟨by decide,
   c6_tolerant_question_coercion sampleDec
     { sampleJSQuery with Questions := [malformedQuestionMap] } 0 (by decide)⟩

/-- C5: if the reverse codec fails on exactly one record among N in the
Answers list (all others succeed, as do Extras and Nameservers), the
reconstructed Answer list has exactly N-1 records, the survivors in
their original order, exactly one error is logged, and the Extra, Ns and
Question outputs do not depend on the Answers list at all; ToQuery is a
total function, so the reconstruction as a whole never fails. -/
theorem c5_partial_failure_isolation (dec : JSMap → Except String α)
    (j : JSQuery) (l₁ l₂ : List JSMap) (bad : JSMap) (e : String)
    (hsplit : j.Answers = l₁ ++ bad :: l₂)
    (hbad : dec bad = .error e)
    (hok : ∀ m ∈ l₁ ++ l₂, ∃ r, dec m = .ok r)
    (hex : ∀ m ∈ j.Extras, ∃ r, dec m = .ok r)
    (hns : ∀ m ∈ j.Nameservers, ∃ r, dec m = .ok r) :
    j.Answers.length = l₁.length + l₂.length + 1 ∧
    (ToQuery dec j).1.1.Answer.length = l₁.length + l₂.length ∧
    (ToQuery dec j).1.1.Answer = (convRRs dec (l₁ ++ l₂)).1 ∧
    (ToQuery dec j).1.2 = [e] ∧
    (∀ ans : List JSMap,
      (ToQuery dec { j with Answers := ans }).1.1.Extra = (ToQuery dec j).1.1.Extra ∧
      (ToQuery dec { j with Answers := ans }).1.1.Ns = (ToQuery dec j).1.1.Ns ∧
      (ToQuery dec { j with Answers := ans }).1.1.Question =
        (ToQuery dec j).1.1.Question) := by
  have hok₁ : ∀ m ∈ l₁, ∃ r, dec m = .ok r :=
    fun m hm => hok m (List.mem_append_left _ hm)
  have hok₂ : ∀ m ∈ l₂, ∃ r, dec m = .ok r :=
    fun m hm => hok m (List.mem_append_right _ hm)
  have hmain : convRRs dec j.Answers =
      ((convRRs dec l₁).1 ++ (convRRs dec l₂).1,
       (convRRs dec l₁).2 ++ (e :: (convRRs dec l₂).2)) := by
    rw [hsplit, convRRs_append]
    have hc : convRRs dec (bad :: l₂) =
        ((convRRs dec l₂).1, e :: (convRRs dec l₂).2) := by
      simp [convRRs, hbad]
    rw [hc]
  have ha1 := convRRs_all_ok dec l₁ hok₁
  have ha2 := convRRs_all_ok dec l₂ hok₂
  have haex := convRRs_all_ok dec j.Extras hex
  have hans := convRRs_all_ok dec j.Nameservers hns
  refine ⟨by rw [hsplit]; simp only [List.length_append, List.length_cons]; omega,
    ?_, ?_, ?_, fun ans => ⟨rfl, rfl, rfl⟩⟩
  · show (convRRs dec j.Answers).1.length = _
    rw [hmain]
    simp [ha1.1, ha2.1]
  · show (convRRs dec j.Answers).1 = _
    rw [hmain, convRRs_append]
  · show (convRRs dec j.Answers).2 ++ (convRRs dec j.Extras).2 ++
      (convRRs dec j.Nameservers).2 = [e]
    rw [hmain]
    simp [ha1.2, ha2.2, haex.2, hans.2]

/-- Witness for C5: three answers, the middle one a nil map the sample
codec rejects. -/
theorem c5_partial_failure_isolation_witness :
    (({ sampleJSQuery with
        Answers := [some [("V", JSVal.vnat 1)], none, some [("V", JSVal.vnat 2)]] } :
          JSQuery).Answers =
      [some [("V", JSVal.vnat 1)]] ++ none :: [some [("V", JSVal.vnat 2)]]) ∧
    (sampleDec none = .error "unsupported record") ∧
    (({ sampleJSQuery with
        Answers := [some [("V", JSVal.vnat 1)], none, some [("V", JSVal.vnat 2)]] } :
          JSQuery).Answers.length = 3 ∧
     (ToQuery sampleDec { sampleJSQuery with
        Answers := [some [("V", JSVal.vnat 1)], none, some [("V", JSVal.vnat 2)]] }).1.1.Answer =
       [1, 2] ∧
     (ToQuery sampleDec { sampleJSQuery with
        Answers := [some [("V", JSVal.vnat 1)], none, some [("V", JSVal.vnat 2)]] }).1.2 =
       ["unsupported record"]) := by
  have h := c5_partial_failure_isolation sampleDec
    { sampleJSQuery with
      Answers := [some [("V", JSVal.vnat 1)], none, some [("V", JSVal.vnat 2)]] }
    [some [("V", JSVal.vnat 1)]] [some [("V", JSVal.vnat 2)]] none "unsupported record"
    rfl rfl
    (by intro m hm
        simp only [List.cons_append, List.nil_append, List.mem_cons,
          List.not_mem_nil, or_false] at hm
        rcases hm with h | h <;> subst h
        · exact ⟨1, rfl⟩
        · exact ⟨2, rfl⟩)
    (by intro m hm; simp [sampleJSQuery] at hm)
    (by intro m hm; simp [sampleJSQuery] at hm)
  refine ⟨rfl, rfl, by rw [h.1]; rfl, ?_, by rw [h.2.2.2.1]⟩
  have := h.2.2.1
  rw [this]
  rfl

/-- C2 counterexample: with a codec that fails on the only answer
record, the generic Answers list is not left with only the successfully
converted records: the failed record's slot is not omitted but kept as
the zero-value nil map, so the list still has length 1 and holds a nil
placeholder. -/
theorem c2_counterexample :
    (NewJSQuery (fun _ : Nat => (.error "boom" : Except String JSEntries))
        sampleLan sampleMsg "1.2.3.4").1.Answers = [none] ∧
    (NewJSQuery (fun _ : Nat => (.error "boom" : Except String JSEntries))
        sampleLan sampleMsg "1.2.3.4").1.Answers.length ≠ 0 ∧
    (NewJSQuery (fun _ : Nat => (.error "boom" : Except String JSEntries))
        sampleLan sampleMsg "1.2.3.4").2 = ["boom", "boom"] :=
  ⟨rfl, by decide, rfl⟩

/-- C2 amended: on a per-record codec failure during construction the
error is logged and the loop continues without aborting, but because the
slices are pre-allocated with make(..., len) and the loop body uses
continue, the failed record's slot keeps the zero-value nil map: each
generic list has exactly the wire list's length, with the converted
mapping at each successful index and a nil placeholder (marshalled as
null) at each failed index; the logged errors appear in record order,
Answers before Extras before Nameservers. -/
theorem c2_amended (enc : α → Except String JSEntries)
    (lan : String → Option Endpoint) (query : Msg α) (clientIP : String) :
    (NewJSQuery enc lan query clientIP).1.Answers =
      query.Answer.map (fun r => (enc r).toOption) ∧
    (NewJSQuery enc lan query clientIP).1.Extras =
      query.Extra.map (fun r => (enc r).toOption) ∧
    (NewJSQuery enc lan query clientIP).1.Nameservers =
      query.Ns.map (fun r => (enc r).toOption) ∧
    (NewJSQuery enc lan query clientIP).1.Answers.length = query.Answer.length ∧
    (NewJSQuery enc lan query clientIP).1.Extras.length = query.Extra.length ∧
    (NewJSQuery enc lan query clientIP).1.Nameservers.length = query.Ns.length ∧
    (NewJSQuery enc lan query clientIP).2 =
      query.Answer.filterMap (fun r =>
        match enc r with | .error e => some e | .ok _ => none) ++
      query.Extra.filterMap (fun r =>
        match enc r with | .error e => some e | .ok _ => none) ++
      query.Ns.filterMap (fun r =>
        match enc r with | .error e => some e | .ok _ => none) := by
  refine ⟨?_, ?_, ?_, ?_, ?_, ?_, ?_⟩
  · rw [NewJSQuery_answers, convSlots_fst]
  · rw [NewJSQuery_extras, convSlots_fst]
  · rw [NewJSQuery_nameservers, convSlots_fst]
  · rw [NewJSQuery_answers, convSlots_fst, List.length_map]
  · rw [NewJSQuery_extras, convSlots_fst, List.length_map]
  · rw [NewJSQuery_nameservers, convSlots_fst, List.length_map]
  · rw [NewJSQuery_logs, convSlots_snd, convSlots_snd, convSlots_snd]

theorem roundtrip_list (enc : α → Except String JSEntries)
    (dec : JSMap → Except String α) :
    ∀ l : List α, (∀ r ∈ l, ∃ g, enc r = .ok g ∧ dec (some g) = .ok r) →
      (convRRs dec (convSlots enc l).1).1 = l
  | [], _ => rfl
  | r :: rest, hall => by
    obtain ⟨g, hg, hgd⟩ := hall r (List.mem_cons_self _ _)
    have ih := roundtrip_list enc dec rest
      (fun x hx => hall x (List.mem_cons_of_mem _ hx))
    simp only [convSlots, hg, convRRs, hgd, ih]

theorem map_id_of_mem {f : β → β} :
    ∀ l : List β, (∀ x ∈ l, f x = x) → l.map f = l
  | [], _ => rfl
  | x :: t, hall => by
    simp only [List.map_cons, hall x (List.mem_cons_self _ _),
      map_id_of_mem t (fun y hy => hall y (List.mem_cons_of_mem _ hy))]

theorem question_coercion_roundtrip (q : Question)
    (ht : q.Qtype < 65536) (hc : q.Qclass < 65536) :
    ({ Name := jsPropToString (some [("Name", JSVal.vstr q.Name),
        ("Qtype", JSVal.vnat q.Qtype), ("Qclass", JSVal.vnat q.Qclass)]) "Name"
       Qtype := jsPropToUint16 (some [("Name", JSVal.vstr q.Name),
        ("Qtype", JSVal.vnat q.Qtype), ("Qclass", JSVal.vnat q.Qclass)]) "Qtype"
       Qclass := jsPropToUint16 (some [("Name", JSVal.vstr q.Name),
        ("Qtype", JSVal.vnat q.Qtype), ("Qclass", JSVal.vnat q.Qclass)]) "Qclass" } :
      Question) = q := by
  obtain ⟨nm, qt, qc⟩ := q
  simp only at ht hc
  simp [jsPropToString, jsPropToUint16, findProp, lookupEntries,
    Nat.mod_eq_of_lt ht, Nat.mod_eq_of_lt hc]

/-- C1: for every wire message and client IP for which every record
converter call succeeds (and round-trips, the codec being an external
collaborator specified by its contract), reconstructing without
intervening mutation yields a wire message semantically equivalent to
the original: the whole header (all eleven fields), the compression
flag, every question in order and every record list in order are
equal. -/
theorem c1_roundtrip (enc : α → Except String JSEntries)
    (dec : JSMap → Except String α) (lan : String → Option Endpoint)
    (query : Msg α) (clientIP : String)
    (hwf : ∀ q ∈ query.Question, q.Qtype < 65536 ∧ q.Qclass < 65536)
    (hans : ∀ r ∈ query.Answer, ∃ g, enc r = .ok g ∧ dec (some g) = .ok r)
    (hnss : ∀ r ∈ query.Ns, ∃ g, enc r = .ok g ∧ dec (some g) = .ok r)
    (hexs : ∀ r ∈ query.Extra, ∃ g, enc r = .ok g ∧ dec (some g) = .ok r) :
    (ToQuery dec (NewJSQuery enc lan query clientIP).1).1.1.MsgHdr = query.MsgHdr ∧
    (ToQuery dec (NewJSQuery enc lan query clientIP).1).1.1.Compress = query.Compress ∧
    (ToQuery dec (NewJSQuery enc lan query clientIP).1).1.1.Question = query.Question ∧
    (ToQuery dec (NewJSQuery enc lan query clientIP).1).1.1.Answer = query.Answer ∧
    (ToQuery dec (NewJSQuery enc lan query clientIP).1).1.1.Ns = query.Ns ∧
    (ToQuery dec (NewJSQuery enc lan query clientIP).1).1.1.Extra = query.Extra := by
  refine ⟨rfl, rfl, ?_, ?_, ?_, ?_⟩
  · show ((NewJSQuery enc lan query clientIP).1.Questions.map _) = _
    rw [NewJSQuery_questions, List.map_map]
    apply map_id_of_mem
    intro q hq
    exact question_coercion_roundtrip q (hwf q hq).1 (hwf q hq).2
  · show (convRRs dec (NewJSQuery enc lan query clientIP).1.Answers).1 = _
    rw [NewJSQuery_answers]
    exact roundtrip_list enc dec query.Answer hans
  · show (convRRs dec (NewJSQuery enc lan query clientIP).1.Nameservers).1 = _
    rw [NewJSQuery_nameservers]
    exact roundtrip_list enc dec query.Ns hnss
  · show (convRRs dec (NewJSQuery enc lan query clientIP).1.Extras).1 = _
    rw [NewJSQuery_extras]
    exact roundtrip_list enc dec query.Extra hexs

/-- Witness for C1 at a concrete message with the sample codec. -/
theorem c1_roundtrip_witness :
    (∀ q ∈ sampleMsg.Question, q.Qtype < 65536 ∧ q.Qclass < 65536) ∧
    ((ToQuery sampleDec (NewJSQuery sampleEnc sampleLan sampleMsg "1.2.3.4").1).1.1.MsgHdr =
        sampleMsg.MsgHdr ∧
     (ToQuery sampleDec (NewJSQuery sampleEnc sampleLan sampleMsg "1.2.3.4").1).1.1.Compress =
        sampleMsg.Compress ∧
     (ToQuery sampleDec (NewJSQuery sampleEnc sampleLan sampleMsg "1.2.3.4").1).1.1.Question =
        sampleMsg.Question ∧
     (ToQuery sampleDec (NewJSQuery sampleEnc sampleLan sampleMsg "1.2.3.4").1).1.1.Answer =
        sampleMsg.Answer ∧
     (ToQuery sampleDec (NewJSQuery sampleEnc sampleLan sampleMsg "1.2.3.4").1).1.1.Ns =
        sampleMsg.Ns ∧
     (ToQuery sampleDec (NewJSQuery sampleEnc sampleLan sampleMsg "1.2.3.4").1).1.1.Extra =
        sampleMsg.Extra) :=
  ⟨by decide,
   c1_roundtrip sampleEnc sampleDec sampleLan sampleMsg "1.2.3.4"
     (by decide)
     (by intro r hr
         simp only [sampleMsg, List.mem_singleton] at hr
         subst hr
         exact ⟨[("V", JSVal.vnat 7)], rfl, rfl⟩)
     (by intro r hr
         simp [sampleMsg] at hr)
     (by intro r hr
         simp only [sampleMsg, List.mem_singleton] at hr
         subst hr
         exact ⟨[("V", JSVal.vnat 3)], rfl, rfl⟩)⟩

theorem refHash_applyMutation (m : Mutation) (j : JSQuery) :
    (applyMutation m j).refHash = j.refHash := by
  cases m <;> rfl

/-- Two fingerprints differ whenever their part lists agree except in
one position where the rendered components differ. -/
theorem hashParts_ne {j j' : JSQuery} (pre post : List String) (b b' : String)
    (h1 : hashParts j' = pre ++ b :: post) (h2 : hashParts j = pre ++ b' :: post)
    (hbb : b ≠ b') : NewHash j' ≠ NewHash j := by
  rw [NewHash_eq_join, NewHash_eq_join, h1, h2]
  exact sepJoin_update_ne "." pre b b' post hbb

/-- Sorting the three fresh question keys: Name, then Qclass, then
Qtype (byte order of the keys, as Go's json.Marshal sorts them). -/
theorem sortQuestion (x y z : JSVal) :
    sortEntries [("Name", x), ("Qtype", y), ("Qclass", z)] =
      [("Name", x), ("Qclass", z), ("Qtype", y)] := by
  simp [sortEntries, List.insertionSort, List.orderedInsert]
  decide

theorem brace_peel {a b : String}
    (h : "\x7b" ++ a ++ "\x7d" = "\x7b" ++ b ++ "\x7d") : a = b := by
  rw [String.append_assoc, String.append_assoc] at h
  exact str_peelR (str_peel h)

theorem jsonEntry_ne {k : String} {v w : JSVal} (hvw : v ≠ w) :
    jsonEntry (k, v) ≠ jsonEntry (k, w) := by
  intro h
  simp only [jsonEntry] at h
  rw [String.append_assoc, String.append_assoc] at h
  exact hvw (jsonVal_inj (str_peel (str_peel h)))

/-- Setting one field of a freshly built question mapping to a value
different from the current one changes the mapping's JSON encoding. -/
theorem question_slot_ne (nm : String) (qt qc : Nat) (k : String) (v w : JSVal)
    (hfind : lookupEntries [("Name", JSVal.vstr nm), ("Qtype", JSVal.vnat qt),
      ("Qclass", JSVal.vnat qc)] k = some w)
    (hwv : w ≠ v) :
    jsonSlot (setProp (some [("Name", JSVal.vstr nm), ("Qtype", JSVal.vnat qt),
      ("Qclass", JSVal.vnat qc)]) k v) ≠
    jsonSlot (some [("Name", JSVal.vstr nm), ("Qtype", JSVal.vnat qt),
      ("Qclass", JSVal.vnat qc)]) := by
  by_cases h1 : ("Name" : String) = k
  · subst h1
    have hw : w = JSVal.vstr nm := by
      simp [lookupEntries] at hfind
      exact hfind.symm
    subst hw
    have hset : setProp (some [("Name", JSVal.vstr nm), ("Qtype", JSVal.vnat qt),
        ("Qclass", JSVal.vnat qc)]) "Name" v =
        some [("Name", v), ("Qtype", JSVal.vnat qt), ("Qclass", JSVal.vnat qc)] := by
      simp [setProp]
    rw [hset]
    intro h
    have hin : sepJoin "," ((sortEntries [("Name", v), ("Qtype", JSVal.vnat qt),
          ("Qclass", JSVal.vnat qc)]).map jsonEntry) =
        sepJoin "," ((sortEntries [("Name", JSVal.vstr nm), ("Qtype", JSVal.vnat qt),
          ("Qclass", JSVal.vnat qc)]).map jsonEntry) := brace_peel h
    rw [sortQuestion, sortQuestion] at hin
    simp only [List.map_cons, List.map_nil] at hin
    exact sepJoin_update_ne "," [] (jsonEntry ("Name", v))
      (jsonEntry ("Name", JSVal.vstr nm))
      [jsonEntry ("Qclass", JSVal.vnat qc), jsonEntry ("Qtype", JSVal.vnat qt)]
      (jsonEntry_ne (Ne.symm hwv)) hin
  · by_cases h2 : ("Qtype" : String) = k
    · subst h2
      have hw : w = JSVal.vnat qt := by
        simp [lookupEntries] at hfind
        exact hfind.symm
      subst hw
      have hset : setProp (some [("Name", JSVal.vstr nm), ("Qtype", JSVal.vnat qt),
          ("Qclass", JSVal.vnat qc)]) "Qtype" v =
          some [("Name", JSVal.vstr nm), ("Qtype", v), ("Qclass", JSVal.vnat qc)] := by
        simp [setProp]
      rw [hset]
      intro h
      have hin : sepJoin "," ((sortEntries [("Name", JSVal.vstr nm), ("Qtype", v),
            ("Qclass", JSVal.vnat qc)]).map jsonEntry) =
          sepJoin "," ((sortEntries [("Name", JSVal.vstr nm), ("Qtype", JSVal.vnat qt),
            ("Qclass", JSVal.vnat qc)]).map jsonEntry) := brace_peel h
      rw [sortQuestion, sortQuestion] at hin
      simp only [List.map_cons, List.map_nil] at hin
      exact sepJoin_update_ne ","
        [jsonEntry ("Name", JSVal.vstr nm), jsonEntry ("Qclass", JSVal.vnat qc)]
        (jsonEntry ("Qtype", v)) (jsonEntry ("Qtype", JSVal.vnat qt)) []
        (jsonEntry_ne (Ne.symm hwv)) hin
    · by_cases h3 : ("Qclass" : String) = k
      · subst h3
        have hw : w = JSVal.vnat qc := by
          simp [lookupEntries] at hfind
          exact hfind.symm
        subst hw
        have hset : setProp (some [("Name", JSVal.vstr nm), ("Qtype", JSVal.vnat qt),
            ("Qclass", JSVal.vnat qc)]) "Qclass" v =
            some [("Name", JSVal.vstr nm), ("Qtype", JSVal.vnat qt), ("Qclass", v)] := by
          simp [setProp]
        rw [hset]
        intro h
        have hin : sepJoin "," ((sortEntries [("Name", JSVal.vstr nm),
              ("Qtype", JSVal.vnat qt), ("Qclass", v)]).map jsonEntry) =
            sepJoin "," ((sortEntries [("Name", JSVal.vstr nm),
              ("Qtype", JSVal.vnat qt), ("Qclass", JSVal.vnat qc)]).map jsonEntry) :=
          brace_peel h
        rw [sortQuestion, sortQuestion] at hin
        simp only [List.map_cons, List.map_nil] at hin
        exact sepJoin_update_ne "," [jsonEntry ("Name", JSVal.vstr nm)]
          (jsonEntry ("Qclass", v)) (jsonEntry ("Qclass", JSVal.vnat qc))
          [jsonEntry ("Qtype", JSVal.vnat qt)]
          (jsonEntry_ne (Ne.symm hwv)) hin
      · exfalso
        simp [lookupEntries, h1, h2, h3] at hfind

theorem getD_eq_get {l : List β} {i : Nat} (h : i < l.length) (d : β) :
    l.getD i d = l.get ⟨i, h⟩ := by
  simp [List.getD_eq_getElem?_getD, List.getElem?_eq_getElem h, List.get_eq_getElem]

theorem get_map_eq (f : β → γ) {l : List β} {i : Nat} (h : i < (l.map f).length)
    (h' : i < l.length) :
    (l.map f).get ⟨i, h⟩ = f (l.get ⟨i, h'⟩) := by
  simp [List.get_eq_getElem, List.getElem_map]

set_option maxHeartbeats 2000000 in
/-- C3: starting from a freshly constructed JSQuery (whose WasModified
is false), mutating any single header flag or field to a different
value, mutating any existing field of any question mapping to a
different value, or appending or removing one record mapping in
Answers, Extras or Nameservers makes WasModified return true. -/
theorem c3_fingerprint_sensitivity (enc : α → Except String JSEntries)
    (lan : String → Option Endpoint) (query : Msg α) (clientIP : String)
    (m : Mutation) (hch : changes m (NewJSQuery enc lan query clientIP).1) :
    (WasModified (applyMutation m (NewJSQuery enc lan query clientIP).1)).1 = true := by
  have hfresh := NewJSQuery_refHash enc lan query clientIP
  have hqs := NewJSQuery_questions enc lan query clientIP
  generalize hJ : (NewJSQuery enc lan query clientIP).1 = j at hch hfresh hqs
  show (NewHash (applyMutation m j) != (applyMutation m j).refHash) = true
  rw [refHash_applyMutation, hfresh, bne_iff_ne]
  cases m with
  | setAuthenticatedData b =>
    exact hashParts_ne
      [jsonList j.Answers,
         j.Client "IP",
         goBool j.Compress,
         jsonList j.Extras]
      [goBool j.Header.Authoritative,
         goBool j.Header.CheckingDisabled,
         natDec j.Header.Id,
         goInt j.Header.Opcode,
         goInt j.Header.Rcode,
         goBool j.Header.RecursionAvailable,
         goBool j.Header.RecursionDesired,
         goBool j.Header.Response,
         goBool j.Header.Truncated,
         goBool j.Header.Zero,
         jsonList j.Nameservers,
         jsonList j.Questions]
      (goBool b) (goBool j.Header.AuthenticatedData) rfl rfl
      (fun heq => hch (goBool_inj heq))
  | setAuthoritative b =>
    exact hashParts_ne
      [jsonList j.Answers,
         j.Client "IP",
         goBool j.Compress,
         jsonList j.Extras,
         goBool j.Header.AuthenticatedData]
      [goBool j.Header.CheckingDisabled,
         natDec j.Header.Id,
         goInt j.Header.Opcode,
         goInt j.Header.Rcode,
         goBool j.Header.RecursionAvailable,
         goBool j.Header.RecursionDesired,
         goBool j.Header.Response,
         goBool j.Header.Truncated,
         goBool j.Header.Zero,
         jsonList j.Nameservers,
         jsonList j.Questions]
      (goBool b) (goBool j.Header.Authoritative) rfl rfl
      (fun heq => hch (goBool_inj heq))
  | setCheckingDisabled b =>
    exact hashParts_ne
      [jsonList j.Answers,
         j.Client "IP",
         goBool j.Compress,
         jsonList j.Extras,
         goBool j.Header.AuthenticatedData,
         goBool j.Header.Authoritative]
      [natDec j.Header.Id,
         goInt j.Header.Opcode,
         goInt j.Header.Rcode,
         goBool j.Header.RecursionAvailable,
         goBool j.Header.RecursionDesired,
         goBool j.Header.Response,
         goBool j.Header.Truncated,
         goBool j.Header.Zero,
         jsonList j.Nameservers,
         jsonList j.Questions]
      (goBool b) (goBool j.Header.CheckingDisabled) rfl rfl
      (fun heq => hch (goBool_inj heq))
  | setId n =>
    exact hashParts_ne
      [jsonList j.Answers,
         j.Client "IP",
         goBool j.Compress,
         jsonList j.Extras,
         goBool j.Header.AuthenticatedData,
         goBool j.Header.Authoritative,
         goBool j.Header.CheckingDisabled]
      [goInt j.Header.Opcode,
         goInt j.Header.Rcode,
         goBool j.Header.RecursionAvailable,
         goBool j.Header.RecursionDesired,
         goBool j.Header.Response,
         goBool j.Header.Truncated,
         goBool j.Header.Zero,
         jsonList j.Nameservers,
         jsonList j.Questions]
      (natDec n) (natDec j.Header.Id) rfl rfl
      (fun heq => hch (natDec_inj heq))
  | setOpcode i =>
    exact hashParts_ne
      [jsonList j.Answers,
         j.Client "IP",
         goBool j.Compress,
         jsonList j.Extras,
         goBool j.Header.AuthenticatedData,
         goBool j.Header.Authoritative,
         goBool j.Header.CheckingDisabled,
         natDec j.Header.Id]
      [goInt j.Header.Rcode,
         goBool j.Header.RecursionAvailable,
         goBool j.Header.RecursionDesired,
         goBool j.Header.Response,
         goBool j.Header.Truncated,
         goBool j.Header.Zero,
         jsonList j.Nameservers,
         jsonList j.Questions]
      (goInt i) (goInt j.Header.Opcode) rfl rfl
      (fun heq => hch (goInt_inj heq))
  | setRcode i =>
    exact hashParts_ne
      [jsonList j.Answers,
         j.Client "IP",
         goBool j.Compress,
         jsonList j.Extras,
         goBool j.Header.AuthenticatedData,
         goBool j.Header.Authoritative,
         goBool j.Header.CheckingDisabled,
         natDec j.Header.Id,
         goInt j.Header.Opcode]
      [goBool j.Header.RecursionAvailable,
         goBool j.Header.RecursionDesired,
         goBool j.Header.Response,
         goBool j.Header.Truncated,
         goBool j.Header.Zero,
         jsonList j.Nameservers,
         jsonList j.Questions]
      (goInt i) (goInt j.Header.Rcode) rfl rfl
      (fun heq => hch (goInt_inj heq))
  | setRecursionAvailable b =>
    exact hashParts_ne
      [jsonList j.Answers,
         j.Client "IP",
         goBool j.Compress,
         jsonList j.Extras,
         goBool j.Header.AuthenticatedData,
         goBool j.Header.Authoritative,
         goBool j.Header.CheckingDisabled,
         natDec j.Header.Id,
         goInt j.Header.Opcode,
         goInt j.Header.Rcode]
      [goBool j.Header.RecursionDesired,
         goBool j.Header.Response,
         goBool j.Header.Truncated,
         goBool j.Header.Zero,
         jsonList j.Nameservers,
         jsonList j.Questions]
      (goBool b) (goBool j.Header.RecursionAvailable) rfl rfl
      (fun heq => hch (goBool_inj heq))
  | setRecursionDesired b =>
    exact hashParts_ne
      [jsonList j.Answers,
         j.Client "IP",
         goBool j.Compress,
         jsonList j.Extras,
         goBool j.Header.AuthenticatedData,
         goBool j.Header.Authoritative,
         goBool j.Header.CheckingDisabled,
         natDec j.Header.Id,
         goInt j.Header.Opcode,
         goInt j.Header.Rcode,
         goBool j.Header.RecursionAvailable]
      [goBool j.Header.Response,
         goBool j.Header.Truncated,
         goBool j.Header.Zero,
         jsonList j.Nameservers,
         jsonList j.Questions]
      (goBool b) (goBool j.Header.RecursionDesired) rfl rfl
      (fun heq => hch (goBool_inj heq))
  | setResponse b =>
    exact hashParts_ne
      [jsonList j.Answers,
         j.Client "IP",
         goBool j.Compress,
         jsonList j.Extras,
         goBool j.Header.AuthenticatedData,
         goBool j.Header.Authoritative,
         goBool j.Header.CheckingDisabled,
         natDec j.Header.Id,
         goInt j.Header.Opcode,
         goInt j.Header.Rcode,
         goBool j.Header.RecursionAvailable,
         goBool j.Header.RecursionDesired]
      [goBool j.Header.Truncated,
         goBool j.Header.Zero,
         jsonList j.Nameservers,
         jsonList j.Questions]
      (goBool b) (goBool j.Header.Response) rfl rfl
      (fun heq => hch (goBool_inj heq))
  | setTruncated b =>
    exact hashParts_ne
      [jsonList j.Answers,
         j.Client "IP",
         goBool j.Compress,
         jsonList j.Extras,
         goBool j.Header.AuthenticatedData,
         goBool j.Header.Authoritative,
         goBool j.Header.CheckingDisabled,
         natDec j.Header.Id,
         goInt j.Header.Opcode,
         goInt j.Header.Rcode,
         goBool j.Header.RecursionAvailable,
         goBool j.Header.RecursionDesired,
         goBool j.Header.Response]
      [goBool j.Header.Zero,
         jsonList j.Nameservers,
         jsonList j.Questions]
      (goBool b) (goBool j.Header.Truncated) rfl rfl
      (fun heq => hch (goBool_inj heq))
  | setZero b =>
    exact hashParts_ne
      [jsonList j.Answers,
         j.Client "IP",
         goBool j.Compress,
         jsonList j.Extras,
         goBool j.Header.AuthenticatedData,
         goBool j.Header.Authoritative,
         goBool j.Header.CheckingDisabled,
         natDec j.Header.Id,
         goInt j.Header.Opcode,
         goInt j.Header.Rcode,
         goBool j.Header.RecursionAvailable,
         goBool j.Header.RecursionDesired,
         goBool j.Header.Response,
         goBool j.Header.Truncated]
      [jsonList j.Nameservers,
         jsonList j.Questions]
      (goBool b) (goBool j.Header.Zero) rfl rfl
      (fun heq => hch (goBool_inj heq))
  | setQuestionField i k v =>
    obtain ⟨hi, w, hfind, hwv⟩ := hch
    have hilen : i < query.Question.length := by
      rw [hqs] at hi
      simpa using hi
    have hq2 : j.Questions[i]? =
        some (some [("Name", JSVal.vstr (query.Question.get ⟨i, hilen⟩).Name),
          ("Qtype", JSVal.vnat (query.Question.get ⟨i, hilen⟩).Qtype),
          ("Qclass", JSVal.vnat (query.Question.get ⟨i, hilen⟩).Qclass)]) := by
      rw [hqs]
      simp [List.getElem?_map, List.getElem?_eq_getElem hilen, List.get_eq_getElem]
    rw [List.getElem?_eq_getElem hi] at hq2
    have hget : j.Questions.get ⟨i, hi⟩ =
        some [("Name", JSVal.vstr (query.Question.get ⟨i, hilen⟩).Name),
          ("Qtype", JSVal.vnat (query.Question.get ⟨i, hilen⟩).Qtype),
          ("Qclass", JSVal.vnat (query.Question.get ⟨i, hilen⟩).Qclass)] := by
      rw [List.get_eq_getElem]
      exact Option.some.inj hq2
    have hgetD : j.Questions.getD i none = j.Questions.get ⟨i, hi⟩ :=
      getD_eq_get hi none
    have hfind2 : lookupEntries [("Name", JSVal.vstr (query.Question.get ⟨i, hilen⟩).Name),
        ("Qtype", JSVal.vnat (query.Question.get ⟨i, hilen⟩).Qtype),
        ("Qclass", JSVal.vnat (query.Question.get ⟨i, hilen⟩).Qclass)] k = some w := by
      have : findProp (j.Questions.getD i none) k = some w := hfind
      rw [hgetD, hget] at this
      exact this
    have hslot := question_slot_ne (query.Question.get ⟨i, hilen⟩).Name
      (query.Question.get ⟨i, hilen⟩).Qtype (query.Question.get ⟨i, hilen⟩).Qclass
      k v w hfind2 hwv
    have hslot2 : jsonSlot (setProp (j.Questions.getD i none) k v) ≠
        jsonSlot (j.Questions.get ⟨i, hi⟩) := by
      rw [hgetD, hget]
      exact hslot
    have hset := List.set_eq_take_cons_drop
      (setProp (j.Questions.getD i none) k v) hi
    have hd := list_decomp j.Questions i hi
    have key := jsonList_update_ne (j.Questions.take i) (j.Questions.drop (i + 1))
      (setProp (j.Questions.getD i none) k v) (j.Questions.get ⟨i, hi⟩) hslot2
    rw [← hset, ← hd] at key
    exact hashParts_ne
      [jsonList j.Answers,
         j.Client "IP",
         goBool j.Compress,
         jsonList j.Extras,
         goBool j.Header.AuthenticatedData,
         goBool j.Header.Authoritative,
         goBool j.Header.CheckingDisabled,
         natDec j.Header.Id,
         goInt j.Header.Opcode,
         goInt j.Header.Rcode,
         goBool j.Header.RecursionAvailable,
         goBool j.Header.RecursionDesired,
         goBool j.Header.Response,
         goBool j.Header.Truncated,
         goBool j.Header.Zero,
         jsonList j.Nameservers]
      []
      (jsonList (j.Questions.set i (setProp (j.Questions.getD i none) k v)))
      (jsonList j.Questions) rfl rfl key
  | appendAnswer mm =>
    exact hashParts_ne
      []
      [j.Client "IP",
         goBool j.Compress,
         jsonList j.Extras,
         goBool j.Header.AuthenticatedData,
         goBool j.Header.Authoritative,
         goBool j.Header.CheckingDisabled,
         natDec j.Header.Id,
         goInt j.Header.Opcode,
         goInt j.Header.Rcode,
         goBool j.Header.RecursionAvailable,
         goBool j.Header.RecursionDesired,
         goBool j.Header.Response,
         goBool j.Header.Truncated,
         goBool j.Header.Zero,
         jsonList j.Nameservers,
         jsonList j.Questions]
      (jsonList (j.Answers ++ [mm])) (jsonList j.Answers) rfl rfl
      (by simpa using jsonList_insert_ne j.Answers [] mm)
  | appendExtra mm =>
    exact hashParts_ne
      [jsonList j.Answers,
         j.Client "IP",
         goBool j.Compress]
      [goBool j.Header.AuthenticatedData,
         goBool j.Header.Authoritative,
         goBool j.Header.CheckingDisabled,
         natDec j.Header.Id,
         goInt j.Header.Opcode,
         goInt j.Header.Rcode,
         goBool j.Header.RecursionAvailable,
         goBool j.Header.RecursionDesired,
         goBool j.Header.Response,
         goBool j.Header.Truncated,
         goBool j.Header.Zero,
         jsonList j.Nameservers,
         jsonList j.Questions]
      (jsonList (j.Extras ++ [mm])) (jsonList j.Extras) rfl rfl
      (by simpa using jsonList_insert_ne j.Extras [] mm)
  | appendNameserver mm =>
    exact hashParts_ne
      [jsonList j.Answers,
         j.Client "IP",
         goBool j.Compress,
         jsonList j.Extras,
         goBool j.Header.AuthenticatedData,
         goBool j.Header.Authoritative,
         goBool j.Header.CheckingDisabled,
         natDec j.Header.Id,
         goInt j.Header.Opcode,
         goInt j.Header.Rcode,
         goBool j.Header.RecursionAvailable,
         goBool j.Header.RecursionDesired,
         goBool j.Header.Response,
         goBool j.Header.Truncated,
         goBool j.Header.Zero]
      [jsonList j.Questions]
      (jsonList (j.Nameservers ++ [mm])) (jsonList j.Nameservers) rfl rfl
      (by simpa using jsonList_insert_ne j.Nameservers [] mm)
  | removeAnswer i =>
    have hd := list_decomp j.Answers i hch
    have he := eraseIdx_eq_take_append_drop j.Answers i
    have key := (jsonList_insert_ne (j.Answers.take i) (j.Answers.drop (i + 1))
      (j.Answers.get ⟨i, hch⟩)).symm
    rw [← hd, ← he] at key
    exact hashParts_ne
      []
      [j.Client "IP",
         goBool j.Compress,
         jsonList j.Extras,
         goBool j.Header.AuthenticatedData,
         goBool j.Header.Authoritative,
         goBool j.Header.CheckingDisabled,
         natDec j.Header.Id,
         goInt j.Header.Opcode,
         goInt j.Header.Rcode,
         goBool j.Header.RecursionAvailable,
         goBool j.Header.RecursionDesired,
         goBool j.Header.Response,
         goBool j.Header.Truncated,
         goBool j.Header.Zero,
         jsonList j.Nameservers,
         jsonList j.Questions]
      (jsonList (j.Answers.eraseIdx i)) (jsonList j.Answers) rfl rfl key
  | removeExtra i =>
    have hd := list_decomp j.Extras i hch
    have he := eraseIdx_eq_take_append_drop j.Extras i
    have key := (jsonList_insert_ne (j.Extras.take i) (j.Extras.drop (i + 1))
      (j.Extras.get ⟨i, hch⟩)).symm
    rw [← hd, ← he] at key
    exact hashParts_ne
      [jsonList j.Answers,
         j.Client "IP",
         goBool j.Compress]
      [goBool j.Header.AuthenticatedData,
         goBool j.Header.Authoritative,
         goBool j.Header.CheckingDisabled,
         natDec j.Header.Id,
         goInt j.Header.Opcode,
         goInt j.Header.Rcode,
         goBool j.Header.RecursionAvailable,
         goBool j.Header.RecursionDesired,
         goBool j.Header.Response,
         goBool j.Header.Truncated,
         goBool j.Header.Zero,
         jsonList j.Nameservers,
         jsonList j.Questions]
      (jsonList (j.Extras.eraseIdx i)) (jsonList j.Extras) rfl rfl key
  | removeNameserver i =>
    have hd := list_decomp j.Nameservers i hch
    have he := eraseIdx_eq_take_append_drop j.Nameservers i
    have key := (jsonList_insert_ne (j.Nameservers.take i) (j.Nameservers.drop (i + 1))
      (j.Nameservers.get ⟨i, hch⟩)).symm
    rw [← hd, ← he] at key
    exact hashParts_ne
      [jsonList j.Answers,
         j.Client "IP",
         goBool j.Compress,
         jsonList j.Extras,
         goBool j.Header.AuthenticatedData,
         goBool j.Header.Authoritative,
         goBool j.Header.CheckingDisabled,
         natDec j.Header.Id,
         goInt j.Header.Opcode,
         goInt j.Header.Rcode,
         goBool j.Header.RecursionAvailable,
         goBool j.Header.RecursionDesired,
         goBool j.Header.Response,
         goBool j.Header.Truncated,
         goBool j.Header.Zero]
      [jsonList j.Questions]
      (jsonList (j.Nameservers.eraseIdx i)) (jsonList j.Nameservers) rfl rfl key

/-- Witness for C3: flipping RecursionDesired on the freshly built
sample query trips WasModified. -/
theorem c3_fingerprint_sensitivity_witness :
    changes (Mutation.setRecursionDesired false)
      (NewJSQuery sampleEnc sampleLan sampleMsg "1.2.3.4").1 ∧
    (WasModified (applyMutation (Mutation.setRecursionDesired false)
      (NewJSQuery sampleEnc sampleLan sampleMsg "1.2.3.4").1)).1 = true :=
  ⟨(by decide :
      false ≠ (NewJSQuery sampleEnc sampleLan sampleMsg "1.2.3.4").1.Header.RecursionDesired),
   c3_fingerprint_sensitivity sampleEnc sampleLan sampleMsg "1.2.3.4"
     (Mutation.setRecursionDesired false)
     (by decide :
      false ≠ (NewJSQuery sampleEnc sampleLan sampleMsg "1.2.3.4").1.Header.RecursionDesired)⟩

end DnsProxy
